import Mathlib

/-!
Shallow embedding of the OCR pipeline in src/OCR_OR.py.

The Python module is a single-threaded batch pipeline: enumerate images in an
interleaved-ends order, probe resident memory before each image to pick a
quality tier, run OCR, accumulate recognized text into a merged buffer, and
extract a model token from the buffer after each image, stopping early on the
first hit.  Pure logic (ordering, tier selection, token extraction, the loop
and its early stop, finalization) is translated directly; OS and OCR effects
(file system, easyocr, PIL, ctypes) are abstracted as explicit inputs: each
image contributes a script of what its fallible operations would do, and the
loop is a function of the list of scripts.  Python floats are modelled as
rationals, Python strings as Lean strings (both are sequences of unicode code
points), and regular-expression matching over the three fixed patterns of the
module is hand-compiled to executable functions on lists of characters,
following exactly the leftmost / greedy semantics of the re module on these
patterns (no backtracking is ever needed for them: every quantifier in the
context pattern admits the empty string, so a keyword match always extends to
a full window match).
-/

/-! ## Token extraction (OCR_OR.py lines 150-172)

CTX_KEYWORDS = (?:商品型號|型號|Model), compiled with IGNORECASE.
The context pattern is CTX_KEYWORDS[^\n]{0,40}\n?[^\n]{0,80}: a keyword, then
up to 40 non-newline characters (greedy), an optional newline, and up to 80
non-newline characters (greedy).  findall scans left to right and resumes
after the end of each match. -/

/-- Match one of the alternatives 商品型號 | 型號 | Model at the head of the
list, in the order the alternation lists them; Model is matched
case-insensitively (the CJK keywords have no case).  Returns the matched
characters as they occur in the text and the remainder. -/
def matchKeyword (l : List Char) : Option (List Char × List Char) :=
  if l.take 4 = "商品型號".toList then some (l.take 4, l.drop 4)
  else if l.take 2 = "型號".toList then some (l.take 2, l.drop 2)
  else if (l.take 5).map Char.toLower = "model".toList then some (l.take 5, l.drop 5)
  else none

/-- Greedily take up to n characters that are not a newline: the semantics of
the greedy quantifier in a pattern fragment of the shape nonNewline-repeated,
followed only by fragments that accept the empty string. -/
def spanNonNl : Nat → List Char → List Char × List Char
  | 0, l => ([], l)
  | _ + 1, [] => ([], [])
  | n + 1, c :: cs =>
    if c = '\n' then ([], c :: cs)
    else
      let p := spanNonNl n cs
      (c :: p.1, p.2)

/-- Try to match the whole context pattern at the head of the list; on success
return the matched window and the remainder of the text. -/
def tryCtxMatch (l : List Char) : Option (List Char × List Char) :=
  match matchKeyword l with
  | none => none
  | some (kw, r0) =>
    let p1 := spanNonNl 40 r0
    let pn : List Char × List Char :=
      match p1.2 with
      | '\n' :: t => (['\n'], t)
      | _ => ([], p1.2)
    let p2 := spanNonNl 80 pn.2
    some (kw ++ p1.1 ++ pn.1 ++ p2.1, p2.2)

/-- Scan for all non-overlapping context windows, left to right, resuming
after each match, as re.findall does.  The fuel argument only bounds the
number of steps; each step consumes at least one character of the remaining
text, so the initial fuel (the length of the text) is never exhausted. -/
def ctxScan : Nat → List Char → List (List Char)
  | 0, _ => []
  | _ + 1, [] => []
  | fuel + 1, c :: cs =>
    match tryCtxMatch (c :: cs) with
    | some (w, r) => w :: ctxScan fuel r
    | none => ctxScan fuel cs

/-- All context windows of a text, in order of occurrence:
ctx_pat.findall(text). -/
def ctxFindAll (l : List Char) : List (List Char) :=
  ctxScan l.length l

/-- Characters of the token grammar MODEL_TOKEN, the ASCII class
A-Za-z0-9 hyphen underscore slash period plus dollar. -/
def isTokChar (c : Char) : Bool :=
  c.isAlpha || c.isDigit || c == '-' || c == '_' || c == '/' ||
    c == '.' || c == '+' || c == '$'

/-- First match of MODEL_TOKEN = tokenChar-repeated-2-to-24 in the window:
leftmost position admitting at least two token characters, then greedily up
to 24 of them, the semantics of token_pat.search. -/
def firstTokenSearch : List Char → Option (List Char)
  | [] => none
  | c :: cs =>
    if isTokChar c then
      match cs with
      | [] => none
      | c2 :: _ =>
        if isTokChar c2 then some (((c :: cs).takeWhile isTokChar).take 24)
        else firstTokenSearch cs
    else firstTokenSearch cs

/-- The alternatives of NEG_UNIT_RE = (?:mm|cm|mAh|mah|w|v|hz|°c|kg)b,
in source order (the final b is the word-boundary assertion). -/
def NEG_UNIT_ALTS : List (List Char) :=
  ["mm".toList, "cm".toList, "mAh".toList, "mah".toList, "w".toList,
   "v".toList, "hz".toList, "°c".toList, "kg".toList]

/-- Word characters of the regular-expression word-boundary assertion.  The
tokens this predicate is applied to are drawn from the ASCII token grammar,
on which the unicode-aware notion of the re module coincides with ASCII. -/
def isWordChar (c : Char) : Bool :=
  c.isAlpha || c.isDigit || c == '_'

/-- The word-boundary assertion after a unit alternative: every alternative
ends in a word character, so the boundary holds exactly when the following
text is empty or starts with a non-word character. -/
def unitBoundaryAfter : List Char → Bool
  | [] => true
  | c :: _ => !isWordChar c

/-- Does some NEG_UNIT_RE alternative match at the head of l, with a word
boundary after it?  Case-insensitivity is the toLower comparison on both
sides. -/
def unitMatchAt (l : List Char) : Bool :=
  NEG_UNIT_ALTS.any fun u =>
    decide ((l.take u.length).map Char.toLower = u.map Char.toLower) &&
      unitBoundaryAfter (l.drop u.length)

/-- neg_unit_pat.search(token) as a boolean: does NEG_UNIT_RE match at some
position of the token? -/
def negUnitSearch : List Char → Bool
  | [] => false
  | c :: cs => unitMatchAt (c :: cs) || negUnitSearch cs

/-- NEG_MAT_SET of OCR_OR.py, as uppercase character lists. -/
def NEG_MAT_LISTS : List (List Char) :=
  ["ABS".toList, "PVC".toList, "PP".toList]

/-- The loop body of extract_models_from_text for one context window: take
the first token-grammar match of the window, drop it if the unit pattern
fires anywhere in it or if its uppercased form is a denylisted material, and
otherwise record it first-seen with exact duplicates suppressed (the
OrderedDict.setdefault of the source). -/
def extractStep (acc : List String) (ctx : List Char) : List String :=
  match firstTokenSearch ctx with
  | none => acc
  | some tok =>
    if negUnitSearch tok then acc
    else if tok.map Char.toUpper ∈ NEG_MAT_LISTS then acc
    else
      let ts := String.mk tok
      if ts ∈ acc then acc else acc ++ [ts]

/-- extract_models_from_text of OCR_OR.py: fold the per-window body over all
context windows in order of occurrence. -/
def extract_models_from_text (text : String) : List String :=
  (ctxFindAll text.toList).foldl extractStep []

/-! ## Image enumeration (OCR_OR.py lines 84-99)

The Python helper _interleave_ends walks two indices i, j inward from the
ends of the sorted list, appending seq at i and then, when the indices have
not met, seq at j.  The loop runs at most one iteration per element, so the
fuel below (length of the list plus one) is never exhausted; indices are
integers exactly as in the source, where j starts at len - 1 and is -1 for an
empty list. -/

/-- One iteration of the while loop of _interleave_ends: while i le j, append
seq at i and advance i; if still i le j, append seq at j and retreat j. -/
def interleaveGo : Nat → List String → Int → Int → List String
  | 0, _, _, _ => []
  | fuel + 1, seq, i, j =>
    if i ≤ j then
      seq.getD i.toNat "" ::
        (if i + 1 ≤ j then seq.getD j.toNat "" :: interleaveGo fuel seq (i + 1) (j - 1)
         else [])
    else []

/-- The function _interleave_ends of OCR_OR.py. -/
def interleave_ends (seq : List String) : List String :=
  interleaveGo (seq.length + 1) seq 0 ((seq.length : Int) - 1)

/-- The extension allowlist of list_images. -/
def IMG_EXTS : List String :=
  [".jpg", ".jpeg", ".png", ".webp", ".bmp", ".tif", ".tiff"]

/-- f.lower().endswith(exts): the lowercased name ends with one of the
allowlisted extensions. -/
def hasImgExt (f : String) : Bool :=
  IMG_EXTS.any fun e => e.toList.isSuffixOf (f.toList.map Char.toLower)

/-- list_images of OCR_OR.py, over the directory listing (the os.listdir
result is the input; path joining is dropped, it prepends the same prefix to
every name and preserves both the allowlist test and the sort order).  Filter
by the extension allowlist, sort lexicographically, interleave the ends. -/
def list_images (files : List String) : List String :=
  interleave_ends ((files.filter hasImgExt).mergeSort (· ≤ ·))

/-! ## Quality tiers and the memory probe (OCR_OR.py lines 44-47, 137-145,
238-240)

rss_mb returns the working-set size in MB as a float, or -1.0 when the
platform query fails; readings are modelled as rationals.  The tier choice of
run_pipeline lines 239-240 is a pure function of the reading taken
immediately before the image. -/

def MAX_LONG_EDGE : Nat := 1000

def REDLINE_MB : ℚ := 2000

def EDGE_PRIMARY : Nat := MAX_LONG_EDGE

def EDGE_FALLBACK : Nat := 832

def DETAIL_PRIMARY : Nat := 1

/-- The sentinel value returned by rss_mb when the probe fails. -/
def RSS_SENTINEL : ℚ := -1

/-- use_edge = EDGE_PRIMARY if (rss_before >= 0 and rss_before < REDLINE_MB)
else EDGE_FALLBACK (run_pipeline line 239). -/
def use_edge (rss_before : ℚ) : Nat :=
  if 0 ≤ rss_before ∧ rss_before < REDLINE_MB then EDGE_PRIMARY else EDGE_FALLBACK

/-- use_detail = DETAIL_PRIMARY if (rss_before >= 0 and rss_before <
REDLINE_MB) else 0 (run_pipeline line 240). -/
def use_detail (rss_before : ℚ) : Nat :=
  if 0 ≤ rss_before ∧ rss_before < REDLINE_MB then DETAIL_PRIMARY else 0

/-! ## The per-image body of run_pipeline (OCR_OR.py lines 234-301)

The fallible external operations of one loop iteration are scripted by an
ImgBehavior: what reading the probe gives, whether load_and_preprocess and
reader.readtext succeed at the selected tier, whether the detail-1
post-processing raises MemoryError, what the joined text and average
confidence are on each path, and whether the reload and re-recognition of the
MemoryError retry succeed.  Any exception other than the caught MemoryError
is a false loadOk or readOk flag: it propagates to the per-image except
handler exactly as a load or read failure does. -/

structure ImgBehavior where
  name : String
  rss : ℚ
  loadOk : Bool
  readOk : Bool
  post1MemErr : Bool
  text1 : String
  ap1 : ℚ
  retryLoadOk : Bool
  retryReadOk : Bool
  text0 : String
deriving Repr, DecidableEq

/-- Outcome of a successful iteration body: the joined text and average
confidence that reach the merged buffer and the csv row, the tier selected
from the probe reading, and the tier of the recognition the texts came from
(these differ exactly on the MemoryError retry path). -/
structure ImgResult where
  text : String
  ap : ℚ
  selEdge : Nat
  selDetail : Nat
  recEdge : Nat
  recDetail : Nat
deriving Repr, DecidableEq

/-- Lines 238-258 of run_pipeline: tier selection, load, recognition, and the
detail-1 post-processing with its MemoryError retry at EDGE_FALLBACK and
detail 0.  Returns none when the iteration raises into the per-image except
handler. -/
def processImage (b : ImgBehavior) : Option ImgResult :=
  let edge := use_edge b.rss
  let detail := use_detail b.rss
  if !b.loadOk then none
  else if !b.readOk then none
  else if detail = 1 then
    if b.post1MemErr then
      if b.retryLoadOk && b.retryReadOk then
        some ⟨b.text0, 0, edge, detail, EDGE_FALLBACK, 0⟩
      else none
    else some ⟨b.text1, b.ap1, edge, detail, edge, detail⟩
  else some ⟨b.text0, 0, edge, detail, edge, detail⟩

/-- One row of images_ocr.csv (line 283): index, filename, text length,
average confidence.  The two memory columns are diagnostic reads taken after
processing and are not modelled. -/
structure CsvRow where
  idx : Nat
  filename : String
  text_len : Nat
  avg_prob : ℚ
deriving Repr, DecidableEq

/-- Observable state of one run: the in-memory merged_so_far buffer, the
blocks written to merged_ocr.txt in file order, the csv rows, the failure
list, the token list written to models_found.txt (none while the file does
not exist; every write of the file is non-empty, it always begins with a
header line), the 1-based index at which the early stop fired, and a trace of
the images whose iteration body ran, with the tier selected for each. -/
structure RunState where
  merged_so_far : String
  fileBlocks : List String
  csvRows : List CsvRow
  failed : List String
  modelFile : Option (List String)
  stoppedAt : Option Nat
  attempted : List (String × Nat × Nat)
deriving Repr, DecidableEq

def initState : RunState :=
  { merged_so_far := "", fileBlocks := [], csvRows := [], failed := [],
    modelFile := none, stoppedAt := none, attempted := [] }

/-- The block appended per processed image, f-string of line 263-264. -/
def block (name text : String) : String :=
  "[" ++ name ++ "]\n" ++ text ++ "\n\n"

/-- State update of the per-image except handler (lines 295-301): record the
attempt and append the name to the failure list. -/
def failState (s : RunState) (b : ImgBehavior) : RunState :=
  { s with
    attempted := s.attempted ++ [(b.name, use_edge b.rss, use_detail b.rss)],
    failed := s.failed ++ [b.name] }

/-- The for loop of run_pipeline (lines 234-301).  idx is the 1-based
enumeration counter.  On success the block is written to the merged file and
buffer, extraction runs over the whole buffer, and a non-empty result with no
token recorded yet writes models_found.txt and breaks; otherwise a csv row is
appended and the loop continues.  On failure the name joins the failure list
and the loop continues. -/
def runLoop : List ImgBehavior → Nat → RunState → RunState
  | [], _, s => s
  | b :: rest, idx, s =>
    match processImage b with
    | none => runLoop rest (idx + 1) (failState s b)
    | some r =>
      let blk := block b.name r.text
      let s1 :=
        { s with
          attempted := s.attempted ++ [(b.name, use_edge b.rss, use_detail b.rss)],
          merged_so_far := s.merged_so_far ++ blk,
          fileBlocks := s.fileBlocks ++ [blk] }
      let early := extract_models_from_text s1.merged_so_far
      if early ≠ [] ∧ s1.modelFile = none then
        { s1 with modelFile := some early, stoppedAt := some idx }
      else
        runLoop rest (idx + 1)
          { s1 with csvRows := s1.csvRows ++ [⟨idx, b.name, r.text.length, r.ap⟩] }

/-- Finalization (lines 303-314): when models_found.txt is absent or empty -
absent exactly when no early stop fired, and never empty when written - read
merged_ocr.txt back and extract over its full contents. -/
def finalize (s : RunState) : RunState :=
  match s.modelFile with
  | some _ => s
  | none =>
    { s with modelFile := some (extract_models_from_text (String.join s.fileBlocks)) }

/-- run_pipeline over the scan order, from the initial state, with
finalization. -/
def run_pipeline (images : List ImgBehavior) : RunState :=
  finalize (runLoop images 1 initState)

/-! ## Concrete inputs used by witnesses -/

/-- A successfully processed image observed under high memory pressure. -/
def imgHighRss : ImgBehavior :=
  { name := "a.jpg", rss := 2500, loadOk := true, readOk := true,
    post1MemErr := false, text1 := "", ap1 := 0,
    retryLoadOk := true, retryReadOk := true, text0 := "" }

/-- A successfully processed image observed under low memory pressure. -/
def imgLowRss : ImgBehavior :=
  { name := "b.jpg", rss := 100, loadOk := true, readOk := true,
    post1MemErr := false, text1 := "", ap1 := 0,
    retryLoadOk := true, retryReadOk := true, text0 := "" }

/-- An image whose recognized text contains no model label. -/
def imgPlain : ImgBehavior :=
  { name := "a.jpg", rss := 100, loadOk := true, readOk := true,
    post1MemErr := false, text1 := "hello", ap1 := 0,
    retryLoadOk := true, retryReadOk := true, text0 := "" }

/-- An image whose recognized text contains a labeled model token. -/
def imgModel : ImgBehavior :=
  { name := "b.jpg", rss := 100, loadOk := true, readOk := true,
    post1MemErr := false, text1 := "型號: ABC-123", ap1 := 0,
    retryLoadOk := true, retryReadOk := true, text0 := "" }

/-- An image after the early stop point; its script is never consulted. -/
def imgTail : ImgBehavior :=
  { name := "c.jpg", rss := 100, loadOk := true, readOk := true,
    post1MemErr := false, text1 := "zzz", ap1 := 0,
    retryLoadOk := true, retryReadOk := true, text0 := "" }

/-- A primary-tier image whose detail-1 post-processing raises MemoryError
and whose fallback retry succeeds. -/
def imgMemErrRetryOk : ImgBehavior :=
  { name := "m.jpg", rss := 100, loadOk := true, readOk := true,
    post1MemErr := true, text1 := "lost", ap1 := 1/2,
    retryLoadOk := true, retryReadOk := true, text0 := "recovered" }

/-- A primary-tier image whose detail-1 post-processing raises MemoryError
and whose fallback retry raises again. -/
def imgMemErrRetryBad : ImgBehavior :=
  { name := "n.jpg", rss := 100, loadOk := true, readOk := true,
    post1MemErr := true, text1 := "lost", ap1 := 1/2,
    retryLoadOk := false, retryReadOk := true, text0 := "" }

/-! ## Theorems -/

/-- Within a valid index range, interleaveGo with sufficient fuel is a
permutation of the corresponding slice of the list. -/
theorem interleaveGo_perm :
    ∀ (fuel : Nat) (seq : List String) (i j : Int), 0 ≤ i → j < (seq.length : Int) →
      (j + 1 - i).toNat ≤ 2 * fuel →
      (interleaveGo fuel seq i j).Perm ((seq.drop i.toNat).take (j + 1 - i).toNat) := by
  intro fuel
  induction fuel with
  | zero =>
    intro seq i j h0 hj hf
    have h : (j + 1 - i).toNat = 0 := by omega
    simp [interleaveGo, h]
  | succ fuel ih =>
    intro seq i j h0 hj hf
    by_cases hij : i ≤ j
    · by_cases hij2 : i + 1 ≤ j
      · have hilen : i.toNat < seq.length := by omega
        have hjlen : j.toNat < seq.length := by omega
        have hrec := ih seq (i + 1) (j - 1) (by omega) (by omega) (by omega)
        have harg : ((i + 1 : Int)).toNat = i.toNat + 1 := by omega
        have harg2 : (j - 1 + 1 - (i + 1)).toNat = (j - i - 1).toNat := by omega
        rw [harg, harg2] at hrec
        rw [interleaveGo]
        simp only [hij, if_true, hij2, if_true]
        have hdrop : seq.drop i.toNat = seq[i.toNat] :: seq.drop (i.toNat + 1) :=
          List.drop_eq_getElem_cons hilen
        have hn1 : (j + 1 - i).toNat = ((j - i - 1).toNat + 1) + 1 := by omega
        rw [hdrop, hn1, List.take_succ_cons, List.take_succ]
        have hidx : (seq.drop (i.toNat + 1))[(j - i - 1).toNat]? = some seq[j.toNat] := by
          rw [List.getElem?_drop]
          have : i.toNat + 1 + (j - i - 1).toNat = j.toNat := by omega
          rw [this, List.getElem?_eq_getElem hjlen]
        rw [hidx]
        rw [List.getD_eq_getElem seq "" hilen, List.getD_eq_getElem seq "" hjlen]
        refine List.Perm.cons _ ?_
        simp only [Option.toList_some]
        exact (List.Perm.cons _ hrec).trans (List.perm_append_singleton _ _).symm
      · have hilen : i.toNat < seq.length := by omega
        rw [interleaveGo]
        simp only [hij, if_true, hij2, if_false]
        have h1 : (j + 1 - i).toNat = 1 := by omega
        have hdrop : seq.drop i.toNat = seq[i.toNat] :: seq.drop (i.toNat + 1) :=
          List.drop_eq_getElem_cons hilen
        rw [h1, hdrop, List.take_succ_cons, List.take_zero]
        rw [List.getD_eq_getElem seq "" hilen]
    · have h : (j + 1 - i).toNat = 0 := by omega
      rw [interleaveGo]
      simp only [hij, if_false, h, List.take_zero]
      exact List.Perm.refl _

/-- The interleaved-ends order is a permutation of its input. -/
theorem interleave_ends_perm (seq : List String) : (interleave_ends seq).Perm seq := by
  have h := interleaveGo_perm (seq.length + 1) seq 0 ((seq.length : Int) - 1)
    (by omega) (by omega) (by omega)
  have h2 : ((seq.length : Int) - 1 + 1 - 0).toNat = seq.length := by omega
  rw [h2] at h
  simpa [interleave_ends, List.take_length] using h

/-- Lists of length at most one are returned unchanged. -/
theorem interleave_ends_short (l : List String) (h : l.length ≤ 1) :
    interleave_ends l = l := by
  match l with
  | [] => rfl
  | [x] => rfl
  | x :: y :: rest => simp at h

/-- Claim C3: list_images is a permutation, of the same length, of the
lexicographically sorted allowlisted files, equal to the sorted list for at
most one element, and on five sorted elements it is the interleaved-ends
order a, e, b, d, c. -/
theorem spec_C3_list_images (files : List String) (a b c d e : String) :
    (list_images files).Perm ((files.filter hasImgExt).mergeSort (· ≤ ·))
    ∧ (list_images files).length = ((files.filter hasImgExt).mergeSort (· ≤ ·)).length
    ∧ (((files.filter hasImgExt).mergeSort (· ≤ ·)).length ≤ 1 →
        list_images files = (files.filter hasImgExt).mergeSort (· ≤ ·))
    ∧ interleave_ends [a, b, c, d, e] = [a, e, b, d, c] := by
  refine ⟨interleave_ends_perm _, (interleave_ends_perm _).length_eq, ?_, ?_⟩
  · intro h
    exact interleave_ends_short _ h
  · show interleaveGo 6 [a, b, c, d, e] 0 4 = [a, e, b, d, c]
    rw [interleaveGo]
    norm_num
    rw [interleaveGo]
    norm_num
    rw [interleaveGo]
    norm_num [List.getD]
    exact ⟨rfl, rfl, rfl⟩

/-- Witness for claim C3 at concrete inputs. -/
theorem spec_C3_list_images_witness :
    list_images ["a.jpg"] = ["a.jpg"]
    ∧ interleave_ends ["a", "b", "c", "d", "e"] = ["a", "e", "b", "d", "c"] := by
  constructor
  · have h := (spec_C3_list_images ["a.jpg"] "a" "b" "c" "d" "e").2.2.1
    have hf : (["a.jpg"].filter hasImgExt) = ["a.jpg"] := by decide
    rw [hf, List.mergeSort_singleton] at h
    exact h (by decide)
  · exact (spec_C3_list_images [] "a" "b" "c" "d" "e").2.2.2

/-- Claim C2 counterexample: at the sentinel probe reading the code selects
the fallback tier, not the primary tier the claim demands. -/
theorem spec_C2_counterexample :
    use_edge RSS_SENTINEL ≠ EDGE_PRIMARY ∧ use_detail RSS_SENTINEL ≠ DETAIL_PRIMARY
    ∧ use_edge RSS_SENTINEL = EDGE_FALLBACK ∧ use_detail RSS_SENTINEL = 0 := by
  decide

/-- Claim C2 amended: a sentinel (negative) probe reading always selects the
fallback tier, long edge 832 and detail level 0, exactly as if pressure were
high. -/
theorem spec_C2_amended (r : ℚ) (h : r < 0) :
    use_edge r = EDGE_FALLBACK ∧ use_detail r = 0 := by
  have hc : ¬ (0 ≤ r ∧ r < REDLINE_MB) := by
    rintro ⟨h0, _⟩
    exact absurd h (not_lt.mpr h0)
  rw [use_edge, use_detail, if_neg hc, if_neg hc]
  exact ⟨rfl, rfl⟩

/-- Witness for claim C2 amended at the concrete sentinel value. -/
theorem spec_C2_amended_witness :
    use_edge (-1) = EDGE_FALLBACK ∧ use_detail (-1) = 0 :=
  spec_C2_amended (-1) (by norm_num)

/-- Claim C4: a valid reading below the redline selects long edge 1000 and
detail 1, a valid reading at or above it selects long edge 832 and detail 0,
and the choice is recomputed per image: after a fallback-tier image, an image
with a low reading is processed at the primary tier. -/
theorem spec_C4_tier_selection :
    (∀ r : ℚ, 0 ≤ r → r < REDLINE_MB → use_edge r = 1000 ∧ use_detail r = 1)
    ∧ (∀ r : ℚ, 0 ≤ r → REDLINE_MB ≤ r → use_edge r = 832 ∧ use_detail r = 0)
    ∧ (runLoop [imgHighRss, imgLowRss] 1 initState).attempted =
        [("a.jpg", 832, 0), ("b.jpg", 1000, 1)] := by
  refine ⟨?_, ?_, by decide⟩
  · intro r h0 hr
    rw [use_edge, use_detail, if_pos ⟨h0, hr⟩, if_pos ⟨h0, hr⟩]
    exact ⟨rfl, rfl⟩
  · intro r h0 hr
    have hc : ¬ (0 ≤ r ∧ r < REDLINE_MB) := by
      rintro ⟨_, hlt⟩
      exact absurd hlt (not_lt.mpr hr)
    rw [use_edge, use_detail, if_neg hc, if_neg hc]
    exact ⟨rfl, rfl⟩

/-- Witness for claim C4 at concrete readings. -/
theorem spec_C4_tier_selection_witness :
    (use_edge 100 = 1000 ∧ use_detail 100 = 1)
    ∧ (use_edge 2500 = 832 ∧ use_detail 2500 = 0) :=
  ⟨spec_C4_tier_selection.1 100 (by norm_num) (by norm_num [REDLINE_MB]),
   spec_C4_tier_selection.2.1 2500 (by norm_num) (by norm_num [REDLINE_MB])⟩

/-- Membership in one extraction step: a token is either carried over or is
the first token-grammar match of the window and survives both filters. -/
theorem mem_extractStep (acc : List String) (w : List Char) (tok : String)
    (h : tok ∈ extractStep acc w) :
    tok ∈ acc ∨
      (firstTokenSearch w = some tok.toList ∧ negUnitSearch tok.toList = false ∧
        tok.toList.map Char.toUpper ∉ NEG_MAT_LISTS) := by
  cases hf : firstTokenSearch w with
  | none =>
    simp only [extractStep, hf] at h
    exact Or.inl h
  | some t =>
    simp only [extractStep, hf] at h
    by_cases hu : negUnitSearch t
    · rw [if_pos hu] at h; exact Or.inl h
    · rw [if_neg hu] at h
      by_cases hm : t.map Char.toUpper ∈ NEG_MAT_LISTS
      · rw [if_pos hm] at h; exact Or.inl h
      · rw [if_neg hm] at h
        by_cases hd : String.mk t ∈ acc
        · rw [if_pos hd] at h; exact Or.inl h
        · rw [if_neg hd] at h
          rcases List.mem_append.mp h with hin | hone
          · exact Or.inl hin
          · have : tok = String.mk t := List.mem_singleton.mp hone
            subst this
            exact Or.inr ⟨rfl, Bool.eq_false_iff.mpr hu, hm⟩

/-- Membership in the extraction fold. -/
theorem mem_extract_foldl :
    ∀ (ws : List (List Char)) (acc : List String) (tok : String),
      tok ∈ ws.foldl extractStep acc →
      tok ∈ acc ∨ ∃ w ∈ ws,
        firstTokenSearch w = some tok.toList ∧ negUnitSearch tok.toList = false ∧
          tok.toList.map Char.toUpper ∉ NEG_MAT_LISTS := by
  intro ws
  induction ws with
  | nil => intro acc tok h; exact Or.inl h
  | cons w ws ih =>
    intro acc tok h
    rcases ih (extractStep acc w) tok h with hacc | ⟨w0, hw0, hp⟩
    · rcases mem_extractStep acc w tok hacc with hin | hp
      · exact Or.inl hin
      · exact Or.inr ⟨w, List.mem_cons_self w ws, hp⟩
    · exact Or.inr ⟨w0, List.mem_cons_of_mem _ hw0, hp⟩

/-- Every extracted token is the first token-grammar match of some context
window of the text and survives the unit and material filters. -/
theorem mem_extract_models (t tok : String)
    (h : tok ∈ extract_models_from_text t) :
    ∃ w ∈ ctxFindAll t.toList,
      firstTokenSearch w = some tok.toList ∧ negUnitSearch tok.toList = false ∧
        tok.toList.map Char.toUpper ∉ NEG_MAT_LISTS := by
  rcases mem_extract_foldl (ctxFindAll t.toList) [] tok h with hnil | hp
  · simp at hnil
  · exact hp

/-- A match of the unit pattern at some position forces the search to fire. -/
theorem negUnitSearch_append :
    ∀ (l1 s : List Char), unitMatchAt s = true → s ≠ [] →
      negUnitSearch (l1 ++ s) = true := by
  intro l1
  induction l1 with
  | nil =>
    intro s hm hne
    match s, hne with
    | c :: cs, _ =>
      show negUnitSearch (c :: cs) = true
      rw [negUnitSearch, hm, Bool.true_or]
  | cons a l1 ih =>
    intro s hm hne
    have : a :: l1 ++ s = a :: (l1 ++ s) := rfl
    rw [this]
    match hcons : l1 ++ s, hne with
    | c :: cs, _ =>
      rw [negUnitSearch]
      have := ih s hm hne
      rw [hcons] at this
      rw [this, Bool.or_true]
    | [], _ =>
      exact absurd (List.append_eq_nil.mp hcons).2 hne

/-- No unit alternative is empty. -/
theorem neg_unit_alts_ne_nil : ∀ u ∈ NEG_UNIT_ALTS, u ≠ [] := by decide

/-- If a unit alternative is a case-insensitive suffix of a token, the unit
search fires on the token: the word boundary holds at the end of the text. -/
theorem negUnitSearch_of_suffix (u l : List Char) (hu : u ∈ NEG_UNIT_ALTS)
    (hs : List.IsSuffix (u.map Char.toLower) (l.map Char.toLower)) :
    negUnitSearch l = true := by
  rcases hs with ⟨p, hp⟩
  rcases List.map_eq_append_iff.mp hp.symm with ⟨l1, l2, hl, hm1, hm2⟩
  have hlen : l2.length = u.length := by
    have := congrArg List.length hm2
    simpa using this
  have hmatch : unitMatchAt l2 = true := by
    rw [unitMatchAt, List.any_eq_true]
    refine ⟨u, hu, ?_⟩
    rw [Bool.and_eq_true]
    constructor
    · rw [← hlen, List.take_length]
      exact decide_eq_true hm2
    · rw [← hlen, List.drop_length]
      rfl
  have hne : l2 ≠ [] := by
    intro hnil
    rw [hnil] at hlen
    exact neg_unit_alts_ne_nil u hu (List.length_eq_zero.mp hlen.symm)
  rw [hl]
  exact negUnitSearch_append l1 l2 hmatch hne

/-- Every window found by the scanner begins with the keyword alternative
that anchored it. -/
theorem tryCtxMatch_starts_keyword (l w r : List Char)
    (h : tryCtxMatch l = some (w, r)) :
    w.take 4 = "商品型號".toList ∨ w.take 2 = "型號".toList ∨
      (w.take 5).map Char.toLower = "model".toList := by
  rw [tryCtxMatch] at h
  cases hk : matchKeyword l with
  | none => rw [hk] at h; exact absurd h (by simp)
  | some kr =>
    obtain ⟨kw, r0⟩ := kr
    rw [hk] at h
    simp only [Option.some.injEq, Prod.mk.injEq] at h
    obtain ⟨hw, -⟩ := h
    rw [List.append_assoc, List.append_assoc] at hw
    rw [matchKeyword] at hk
    split_ifs at hk with h1 h2 h3
    · simp only [Option.some.injEq, Prod.mk.injEq] at hk
      obtain ⟨hkw, -⟩ := hk
      subst hkw
      left
      rw [← hw, h1]
      rfl
    · simp only [Option.some.injEq, Prod.mk.injEq] at hk
      obtain ⟨hkw, -⟩ := hk
      subst hkw
      right; left
      rw [← hw, h2]
      rfl
    · simp only [Option.some.injEq, Prod.mk.injEq] at hk
      obtain ⟨hkw, -⟩ := hk
      subst hkw
      right; right
      have h5 : (l.take 5).length = 5 := by
        have := congrArg List.length h3
        simpa using this
      rw [← hw, List.take_append_of_le_length (le_of_eq h5.symm)]
      simpa [List.take_take] using h3

/-- Every window produced by the scanner starts with a keyword match. -/
theorem ctxScan_starts_keyword :
    ∀ (fuel : Nat) (l w : List Char), w ∈ ctxScan fuel l →
      w.take 4 = "商品型號".toList ∨ w.take 2 = "型號".toList ∨
        (w.take 5).map Char.toLower = "model".toList := by
  intro fuel
  induction fuel with
  | zero => intro l w h; simp [ctxScan] at h
  | succ fuel ih =>
    intro l w h
    match l with
    | [] => simp [ctxScan] at h
    | c :: cs =>
      rw [ctxScan] at h
      cases hm : tryCtxMatch (c :: cs) with
      | none =>
        rw [hm] at h
        exact ih cs w h
      | some wr =>
        obtain ⟨w0, r⟩ := wr
        rw [hm] at h
        rcases List.mem_cons.mp h with rfl | hmem
        · exact tryCtxMatch_starts_keyword (c :: cs) w r hm
        · exact ih r w hmem

/-- Claim C9: a window anchored by the English label keyword starts with that
keyword, so the first token-grammar match of the window is the label word
itself, which survives both filters and is the extracted candidate. -/
theorem spec_C9_keyword_window :
    (∀ (t : String) (w : List Char), w ∈ ctxFindAll t.toList →
        w.take 4 = "商品型號".toList ∨ w.take 2 = "型號".toList ∨
          (w.take 5).map Char.toLower = "model".toList)
    ∧ extract_models_from_text "Model: ABC-123" = ["Model"] := by
  refine ⟨?_, by decide⟩
  intro t w h
  exact ctxScan_starts_keyword t.toList.length t.toList w h

/-- Witness for claim C9: the single window of a concrete labeled text, and
the extraction result on it. -/
theorem spec_C9_keyword_window_witness :
    ("Model: ABC-123".toList.take 4 = "商品型號".toList ∨
      "Model: ABC-123".toList.take 2 = "型號".toList ∨
      ("Model: ABC-123".toList.take 5).map Char.toLower = "model".toList)
    ∧ extract_models_from_text "Model: ABC-123" = ["Model"] :=
  ⟨spec_C9_keyword_window.1 "Model: ABC-123" "Model: ABC-123".toList (by decide),
   spec_C9_keyword_window.2⟩

/-- Claim C5 counterexample: in the single window of this text the first
token-grammar match 5mm is rejected as unit-like, a later substring ABC-123
matches the grammar and survives both filters, yet extraction keeps nothing
from the window. -/
theorem spec_C5_counterexample :
    ctxFindAll "型號: 5mm ABC-123".toList = ["型號: 5mm ABC-123".toList]
    ∧ firstTokenSearch "型號: 5mm ABC-123".toList = some "5mm".toList
    ∧ negUnitSearch "5mm".toList = true
    ∧ firstTokenSearch " ABC-123".toList = some "ABC-123".toList
    ∧ negUnitSearch "ABC-123".toList = false
    ∧ "ABC-123".toList.map Char.toUpper ∉ NEG_MAT_LISTS
    ∧ extract_models_from_text "型號: 5mm ABC-123" = [] := by
  decide

/-- Claim C5 amended: within each window only the first token-grammar match
is considered; every extracted token is the first match of its window and
survives both filters, and a window whose first match is rejected contributes
no token even if a later substring would survive. -/
theorem spec_C5_amended (t tok : String)
    (h : tok ∈ extract_models_from_text t) :
    ∃ w ∈ ctxFindAll t.toList,
      firstTokenSearch w = some tok.toList ∧ negUnitSearch tok.toList = false ∧
        tok.toList.map Char.toUpper ∉ NEG_MAT_LISTS :=
  mem_extract_models t tok h

/-- Witness for claim C5 amended at a concrete text: the sole window of the
text is the whole text, and the extracted token is its first grammar match
and survives both filters. -/
theorem spec_C5_amended_witness :
    firstTokenSearch "型號: ABC-123".toList = some "ABC-123".toList
    ∧ negUnitSearch "ABC-123".toList = false
    ∧ "ABC-123".toList.map Char.toUpper ∉ NEG_MAT_LISTS := by
  obtain ⟨w, hw, h⟩ := spec_C5_amended "型號: ABC-123" "ABC-123" (by decide)
  have hwin : w = "型號: ABC-123".toList := by
    rw [show ctxFindAll "型號: ABC-123".toList = ["型號: ABC-123".toList] from by decide] at hw
    simpa using hw
  rw [hwin] at h
  exact h

/-- Claim C6: no extracted token has a unit alternative as a case-insensitive
trailing word, none has a denylisted material as its uppercased form, and the
concrete text with a bare measurement yields no token. -/
theorem spec_C6_noise_filters :
    (∀ (t tok : String), tok ∈ extract_models_from_text t →
        (∀ u ∈ NEG_UNIT_ALTS,
          ¬ List.IsSuffix (u.map Char.toLower) (tok.toList.map Char.toLower))
        ∧ tok.toList.map Char.toUpper ∉ NEG_MAT_LISTS)
    ∧ extract_models_from_text "型號: 5mm" = [] := by
  refine ⟨?_, by decide⟩
  intro t tok h
  rcases mem_extract_models t tok h with ⟨w, hw, hfst, hneg, hmat⟩
  refine ⟨?_, hmat⟩
  intro u hu hsuf
  have := negUnitSearch_of_suffix u tok.toList hu hsuf
  rw [this] at hneg
  exact Bool.true_eq_false.mp hneg

/-- Witness for claim C6 at a concrete extracted token and unit. -/
theorem spec_C6_noise_filters_witness :
    ¬ List.IsSuffix ("mm".toList.map Char.toLower) ("Model".toList.map Char.toLower)
    ∧ "Model".toList.map Char.toUpper ∉ NEG_MAT_LISTS :=
  ⟨(spec_C6_noise_filters.1 "Model: ABC-123" "Model" (by decide)).1 "mm".toList (by decide),
   (spec_C6_noise_filters.1 "Model: ABC-123" "Model" (by decide)).2⟩

/-- Claim C10: the unit rejection fires whenever a unit alternative occurs
anywhere in a candidate followed by a word boundary, not only as a trailing
word: the candidate CM-500 under a model label is rejected and its window
yields nothing, though its trailing word 500 is not a unit. -/
theorem spec_C10_interior_unit :
    (∀ (l1 l2 u : List Char), u ∈ NEG_UNIT_ALTS →
        (l2.take u.length).map Char.toLower = u.map Char.toLower →
        unitBoundaryAfter (l2.drop u.length) = true →
        negUnitSearch (l1 ++ l2) = true)
    ∧ ctxFindAll "型號: CM-500".toList = ["型號: CM-500".toList]
    ∧ firstTokenSearch "型號: CM-500".toList = some "CM-500".toList
    ∧ negUnitSearch "CM-500".toList = true
    ∧ (∀ u ∈ NEG_UNIT_ALTS,
        ¬ List.IsSuffix (u.map Char.toLower) ("CM-500".toList.map Char.toLower))
    ∧ extract_models_from_text "型號: CM-500" = [] := by
  refine ⟨?_, by decide, by decide, by decide, by decide, by decide⟩
  intro l1 l2 u hu htake hbound
  have hmatch : unitMatchAt l2 = true := by
    rw [unitMatchAt, List.any_eq_true]
    exact ⟨u, hu, by rw [Bool.and_eq_true]; exact ⟨decide_eq_true htake, hbound⟩⟩
  have hne : l2 ≠ [] := by
    intro hnil
    subst hnil
    have hulen : u.length = 0 := by
      have := congrArg List.length htake
      simp at this
      have hne := neg_unit_alts_ne_nil u hu
      rcases Nat.eq_zero_or_pos u.length with h0 | hpos
      · exact h0
      · omega
    exact neg_unit_alts_ne_nil u hu (List.length_eq_zero.mp hulen)
  exact negUnitSearch_append l1 l2 hmatch hne

/-- Witness for claim C10: the firing of the unit pattern at an interior
position with a boundary formed by a hyphen. -/
theorem spec_C10_interior_unit_witness :
    negUnitSearch ("X".toList ++ "cm-9".toList) = true :=
  spec_C10_interior_unit.1 "X".toList "cm-9".toList "cm".toList
    (by decide) (by decide) (by decide)

/-- Appending to the empty string is the identity. -/
theorem string_nil_append (s : String) : "" ++ s = s := rfl

/-- Claim C1: when the merged buffer yields no token after image 1 and a
token after image 2, the run processes exactly two images, never reaches
image 3, writes the result file immediately after image 2, and appends a csv
row for image 1 only - none for image 2, which triggered the stop, nor for
image 3. -/
theorem spec_C1_early_stop (b1 b2 b3 : ImgBehavior) (r1 r2 : ImgResult)
    (h1 : processImage b1 = some r1) (h2 : processImage b2 = some r2)
    (he1 : extract_models_from_text (block b1.name r1.text) = [])
    (he2 : extract_models_from_text (block b1.name r1.text ++ block b2.name r2.text) ≠ []) :
    (run_pipeline [b1, b2, b3]).attempted =
      [(b1.name, use_edge b1.rss, use_detail b1.rss),
       (b2.name, use_edge b2.rss, use_detail b2.rss)]
    ∧ (run_pipeline [b1, b2, b3]).stoppedAt = some 2
    ∧ (run_pipeline [b1, b2, b3]).modelFile =
        some (extract_models_from_text (block b1.name r1.text ++ block b2.name r2.text))
    ∧ (run_pipeline [b1, b2, b3]).csvRows = [⟨1, b1.name, r1.text.length, r1.ap⟩] := by
  have hrun : run_pipeline [b1, b2, b3] =
      { merged_so_far := block b1.name r1.text ++ block b2.name r2.text,
        fileBlocks := [block b1.name r1.text, block b2.name r2.text],
        csvRows := [⟨1, b1.name, r1.text.length, r1.ap⟩],
        failed := [],
        modelFile := some (extract_models_from_text
          (block b1.name r1.text ++ block b2.name r2.text)),
        stoppedAt := some 2,
        attempted := [(b1.name, use_edge b1.rss, use_detail b1.rss),
          (b2.name, use_edge b2.rss, use_detail b2.rss)] } := by
    rw [run_pipeline, runLoop, h1]
    simp only [initState, string_nil_append, he1, ne_eq, List.nil_append]
    norm_num
    rw [runLoop, h2]
    simp only [ne_eq, he2, not_false_eq_true, List.nil_append]
    norm_num [finalize]
  rw [hrun]
  exact ⟨rfl, rfl, rfl, rfl⟩

/-- Witness for claim C1 at a concrete three-image run. -/
theorem spec_C1_early_stop_witness :
    (run_pipeline [imgPlain, imgModel, imgTail]).attempted =
      [("a.jpg", use_edge imgPlain.rss, use_detail imgPlain.rss),
       ("b.jpg", use_edge imgModel.rss, use_detail imgModel.rss)]
    ∧ (run_pipeline [imgPlain, imgModel, imgTail]).stoppedAt = some 2
    ∧ (run_pipeline [imgPlain, imgModel, imgTail]).modelFile =
        some (extract_models_from_text
          (block "a.jpg" "hello" ++ block "b.jpg" "型號: ABC-123"))
    ∧ (run_pipeline [imgPlain, imgModel, imgTail]).csvRows =
        [⟨1, "a.jpg", "hello".length, 0⟩] :=
  spec_C1_early_stop imgPlain imgModel imgTail
    ⟨"hello", 0, 1000, 1, 1000, 1⟩ ⟨"型號: ABC-123", 0, 1000, 1, 1000, 1⟩
    (by decide) (by decide) (by decide) (by decide)

/-- The loop records a token list exactly when it records an early stop. -/
theorem runLoop_modelFile_iff_stoppedAt :
    ∀ (bs : List ImgBehavior) (idx : Nat) (s : RunState),
      (s.modelFile = none ↔ s.stoppedAt = none) →
      ((runLoop bs idx s).modelFile = none ↔ (runLoop bs idx s).stoppedAt = none) := by
  intro bs
  induction bs with
  | nil => intro idx s h; exact h
  | cons b rest ih =>
    intro idx s h
    rw [runLoop]
    cases hp : processImage b with
    | none => exact ih (idx + 1) (failState s b) h
    | some r =>
      simp only
      by_cases hc : extract_models_from_text (s.merged_so_far ++ block b.name r.text) ≠ [] ∧
          s.modelFile = none
      · rw [if_pos hc]
        simp
      · rw [if_neg hc]
        exact ih (idx + 1) _ h

/-- Finalization keeps the merged file and the stop index unchanged. -/
theorem finalize_preserves (s : RunState) :
    (finalize s).fileBlocks = s.fileBlocks ∧ (finalize s).stoppedAt = s.stoppedAt := by
  rw [finalize]
  cases s.modelFile <;> simp

/-- Claim C7. -/
theorem spec_C7_run_completeness (bs : List ImgBehavior)
    (h : (run_pipeline bs).stoppedAt = none) :
    (run_pipeline bs).modelFile =
      some (extract_models_from_text (String.join (run_pipeline bs).fileBlocks)) := by
  have hstop : (runLoop bs 1 initState).stoppedAt = none := by
    have := (finalize_preserves (runLoop bs 1 initState)).2
    rw [run_pipeline] at h
    rw [this] at h
    exact h
  have hmf : (runLoop bs 1 initState).modelFile = none :=
    (runLoop_modelFile_iff_stoppedAt bs 1 initState (by simp [initState])).mpr hstop
  rw [run_pipeline, finalize, hmf]

/-- Witness for claim C7 on a concrete run with no early stop. -/
theorem spec_C7_run_completeness_witness :
    (run_pipeline [imgPlain]).modelFile =
      some (extract_models_from_text (String.join (run_pipeline [imgPlain]).fileBlocks)) :=
  spec_C7_run_completeness [imgPlain] (by decide)

/-- Claim C8: a MemoryError in primary-tier post-processing forces one retry
with the image reloaded at the fallback edge and recognized at detail 0,
discarding the partial result; a failed retry sends the image to the failure
list and the loop continues with the remaining images; a failed image never
aborts the run. -/
theorem spec_C8_oom_retry :
    (∀ b : ImgBehavior, 0 ≤ b.rss → b.rss < REDLINE_MB →
        b.loadOk = true → b.readOk = true → b.post1MemErr = true →
        b.retryLoadOk = true → b.retryReadOk = true →
        processImage b = some ⟨b.text0, 0, EDGE_PRIMARY, DETAIL_PRIMARY, EDGE_FALLBACK, 0⟩)
    ∧ (∀ b : ImgBehavior, 0 ≤ b.rss → b.rss < REDLINE_MB →
        b.loadOk = true → b.readOk = true → b.post1MemErr = true →
        ¬ (b.retryLoadOk = true ∧ b.retryReadOk = true) →
        processImage b = none)
    ∧ (∀ (b : ImgBehavior) (rest : List ImgBehavior) (idx : Nat) (s : RunState),
        processImage b = none →
        runLoop (b :: rest) idx s = runLoop rest (idx + 1) (failState s b)) := by
  refine ⟨?_, ?_, ?_⟩
  · intro b h0 hr hl hrd hm hrl hrr
    have hc : 0 ≤ b.rss ∧ b.rss < REDLINE_MB := ⟨h0, hr⟩
    simp [processImage, use_edge, use_detail, hc, hl, hrd, hm, hrl, hrr, DETAIL_PRIMARY]
  · intro b h0 hr hl hrd hm hretry
    have hc : 0 ≤ b.rss ∧ b.rss < REDLINE_MB := ⟨h0, hr⟩
    have hand : (b.retryLoadOk && b.retryReadOk) = false := by
      cases hx : b.retryLoadOk <;> cases hy : b.retryReadOk <;> simp_all
    simp [processImage, use_edge, use_detail, hc, hl, hrd, hm, hand, DETAIL_PRIMARY]
  · intro b rest idx s hp
    rw [runLoop, hp]

/-- Witness for claim C8 at concrete scripts. -/
theorem spec_C8_oom_retry_witness :
    processImage imgMemErrRetryOk =
      some ⟨"recovered", 0, EDGE_PRIMARY, DETAIL_PRIMARY, EDGE_FALLBACK, 0⟩
    ∧ processImage imgMemErrRetryBad = none
    ∧ runLoop [imgMemErrRetryBad] 1 initState =
        runLoop [] 2 (failState initState imgMemErrRetryBad) :=
  ⟨spec_C8_oom_retry.1 imgMemErrRetryOk (by norm_num [imgMemErrRetryOk])
      (by norm_num [imgMemErrRetryOk, REDLINE_MB]) rfl rfl rfl rfl rfl,
   spec_C8_oom_retry.2.1 imgMemErrRetryBad (by norm_num [imgMemErrRetryBad])
      (by norm_num [imgMemErrRetryBad, REDLINE_MB]) rfl rfl rfl
      (by intro h; exact Bool.false_ne_true h.1),
   spec_C8_oom_retry.2.2 imgMemErrRetryBad [] 1 initState
     (spec_C8_oom_retry.2.1 imgMemErrRetryBad (by norm_num [imgMemErrRetryBad])
       (by norm_num [imgMemErrRetryBad, REDLINE_MB]) rfl rfl rfl
       (by intro h; exact Bool.false_ne_true h.1))⟩
